import Mathlib

/-!
Verification of the Gamma Ramp Controller (RandR backend and dummy fallback).

Shallow embedding of `src/gamma/gamma_randr.rs` and `src/gamma_method.rs`.
The X transport (an `xcb::Connection`) is modelled by explicit oracles:

* a version reply (what `randr::query_version(..).get_reply()` returns),
* an enumeration result (what `randr::get_screen_resources(..).get_reply()`
  returns: the list of CRTC handles),
* a per-handle gamma fetch (`randr::get_crtc_gamma(..).get_reply()`),
* a per-request outcome for checked set-gamma requests
  (`set_crtc_gamma_checked(..).request_check()`), indexed by the position of
  the request within the current call: `none` means success, `some code`
  means an X error with that error code.

Machine integers (`u16`, `u32`) are modelled as `Nat`; every value written
into a ramp is below 2^16 = 65536 in the reachable states.  The base-ramp
expression `((i as f64 / ramp_size as f64) * 65536.0) as u16` is modelled
exactly: for `ramp_size ≤ 65536` and `i < ramp_size` the double-precision
computation is exact floor division (the quotient `i*65536/ramp_size` is
either an exactly representable dyadic rational or at distance ≥ 2^-16 from
any integer while the rounding error is ≤ 2^-37), and the `as u16` cast
truncates, saturating at 65535; `i/0.0` is NaN for `i = 0` (casts to 0) and
+inf for `i > 0` (saturates to 65535).
-/

/-- The `transition::ColorSetting` value object.  It is external to this
core and passed opaquely; the only field this core ever inspects is `temp`
(printed by the dummy backend). -/
structure ColorSetting where
  temp : Int
deriving DecidableEq

/-- `RandrError` from `gamma_randr.rs`: `Generic` wraps an X protocol error
(we keep its error code, the only datum the code ever reads from it),
`Conn` is a connection error, `UnsupportedVersion` carries the reported
major and minor version. -/
inductive RandrError where
  | Generic (code : Nat)
  | Conn
  | UnsupportedVersion (major minor : Nat)
deriving DecidableEq

/-- `RANDR_MAJOR_VERSION` constant. -/
def RANDR_MAJOR_VERSION : Nat := 1

/-- `RANDR_MINOR_VERSION` constant. -/
def RANDR_MINOR_VERSION : Nat := 3

/-- The reply to `randr::query_version`: the server's reported version. -/
structure VersionReply where
  major_version : Nat
  minor_version : Nat
deriving DecidableEq

/-- The version check in `query_version` (`gamma_randr.rs`), given the
reported version: fails with `UnsupportedVersion(reported)` when the
reported major differs from `RANDR_MAJOR_VERSION` or the reported minor is
below `RANDR_MINOR_VERSION`. -/
def query_version (reply : VersionReply) : Except RandrError Unit :=
  if reply.major_version ≠ RANDR_MAJOR_VERSION ∨
      reply.minor_version < RANDR_MINOR_VERSION then
    .error (.UnsupportedVersion reply.major_version reply.minor_version)
  else
    .ok ()

/-- `query_version` including the `get_reply()` round-trip: a failed
round-trip (error code `c`) is wrapped as `RandrError::Generic`. -/
def queryVersionFull (reply : Except Nat VersionReply) : Except RandrError Unit :=
  match reply with
  | .error code => .error (.Generic code)
  | .ok r => query_version r

/-- The reply to `randr::get_crtc_gamma`: the ramp size and the three
channel arrays.  (XCB decodes each channel array with length `size`, per
the RandR wire format; `GammaReply.Wf` states that protocol guarantee.) -/
structure GammaReply where
  size : Nat
  red : List Nat
  green : List Nat
  blue : List Nat
deriving DecidableEq

/-- The RandR wire-format guarantee on a decoded gamma reply: each channel
array has `size` elements. -/
def GammaReply.Wf (g : GammaReply) : Prop :=
  g.red.length = g.size ∧ g.green.length = g.size ∧ g.blue.length = g.size

/-- The `Crtc` record from `gamma_randr.rs`. -/
structure Crtc where
  id : Nat
  ramp_size : Nat
  saved_ramps : List Nat × List Nat × List Nat
  scratch : List Nat × List Nat × List Nat
deriving DecidableEq

/-- `RandrState` from `gamma_randr.rs`.  The `conn` field (the X
connection) is modelled by the transport oracles each operation takes. -/
structure RandrState where
  screen_num : Int
  window_dummy : Nat
  crtcs : List Crtc
deriving DecidableEq

/-- One checked set-gamma request as put on the wire: the CRTC id and the
three channel arrays. -/
structure SetGammaReq where
  crtc_id : Nat
  red : List Nat
  green : List Nat
  blue : List Nat
deriving DecidableEq

/-- The value `((i as f64 / ramp_size as f64) * 65536.0) as u16` computed
by the base-ramp loop in `set_crtc_temperatures`, modelled exactly (see the
file header): floor division, saturated at `u16::MAX`, with the `ramp_size
= 0` division-by-zero cases spelled out. -/
def rampValue (ramp_size i : Nat) : Nat :=
  if ramp_size = 0 then (if i = 0 then 0 else 65535)
  else min (i * 65536 / ramp_size) 65535

/-- Rust slice indexing `l[i] = v`: in bounds it overwrites, out of bounds
it panics (`none`). -/
def setIdx (l : List Nat) (i v : Nat) : Option (List Nat) :=
  if i < l.length then some (l.set i v) else none

/-- The base-ramp loop of `set_crtc_temperatures`:
`for i in 0..r.len() { let v = ...; r[i] = v; g[i] = v; b[i] = v; }`,
unrolled as a countdown `k` of remaining iterations with current index `i`.
A `none` result is an index-out-of-bounds panic. -/
def baseLoopAux (ramp_size : Nat) :
    Nat → Nat → List Nat → List Nat → List Nat →
    Option (List Nat × List Nat × List Nat)
  | 0, _, r, g, b => some (r, g, b)
  | k + 1, i, r, g, b =>
    let v := rampValue ramp_size i
    match setIdx r i v, setIdx g i v, setIdx b i v with
    | some r', some g', some b' => baseLoopAux ramp_size k (i + 1) r' g' b'
    | _, _, _ => none

/-- The base-ramp recomputation over the three scratch channels; the loop
bound is `r.length` (the red channel's length), exactly as in the source. -/
def baseRamp (ramp_size : Nat) (r g b : List Nat) :
    Option (List Nat × List Nat × List Nat) :=
  baseLoopAux ramp_size r.length 0 r g b

/-- The type of the external `colorramp::fill` transform: it receives the
three (mutable, in place) channel arrays, the setting, and the ramp size. -/
def FillFn : Type :=
  List Nat → List Nat → List Nat → ColorSetting → Nat →
    List Nat × List Nat × List Nat

/-- In the source, `fill` receives `&mut [u16]` slices, which cannot be
resized; length preservation is therefore a fact of the Rust types, stated
here as a predicate on the modelled transform. -/
def FillLen (fill : FillFn) : Prop :=
  ∀ r g b st n,
    (fill r g b st n).1.length = r.length ∧
    (fill r g b st n).2.1.length = g.length ∧
    (fill r g b st n).2.2.length = b.length

/-- One controller's new scratch contents in `set_crtc_temperatures`: the
base ramp recomputed in place, then the external transform applied; `none`
is the base-ramp loop panicking. -/
def newScratch (fill : FillFn) (setting : ColorSetting) (c : Crtc) :
    Option (List Nat × List Nat × List Nat) :=
  match baseRamp c.ramp_size c.scratch.1 c.scratch.2.1 c.scratch.2.2 with
  | none => none
  | some (r, g, b) => some (fill r g b setting c.ramp_size)

/-- The controller after one `set_crtc_temperatures` step (total version:
on a panic it returns the controller unchanged; used only to state results
of runs that do not panic). -/
def applyOneD (fill : FillFn) (setting : ColorSetting) (c : Crtc) : Crtc :=
  match newScratch fill setting c with
  | none => c
  | some s => { c with scratch := s }

/-- The set-gamma request a controller's current scratch contents produce. -/
def mkReq (c : Crtc) : SetGammaReq :=
  ⟨c.id, c.scratch.1, c.scratch.2.1, c.scratch.2.2⟩

/-- The loop of `set_crtc_temperatures` over `self.crtcs.iter_mut()`.
`send j` is the outcome of the `j`-th checked set-gamma request of this
call.  Returns the controller list as left by the loop (processed
controllers carry their new scratch; on an early error return the
remaining ones are untouched), the requests put on the wire in order, and
the call's result.  `none` is a panic in the base-ramp loop. -/
def setCrtcAux (fill : FillFn) (send : Nat → Option Nat)
    (setting : ColorSetting) :
    List Crtc → Nat →
    Option (List Crtc × List SetGammaReq × Except RandrError Unit)
  | [], _ => some ([], [], .ok ())
  | c :: t, k =>
    match newScratch fill setting c with
    | none => none
    | some s =>
      let c' : Crtc := { c with scratch := s }
      let req : SetGammaReq := ⟨c.id, s.1, s.2.1, s.2.2⟩
      match send k with
      | some code => some (c' :: t, [req], .error (.Generic code))
      | none =>
        match setCrtcAux fill send setting t (k + 1) with
        | none => none
        | some (cs, reqs, res) => some (c' :: cs, req :: reqs, res)

/-- `RandrState::set_crtc_temperatures` (the body of `set_temperature`). -/
def RandrState.setCrtcTemperatures (s : RandrState) (fill : FillFn)
    (send : Nat → Option Nat) (setting : ColorSetting) :
    Option (RandrState × List SetGammaReq × Except RandrError Unit) :=
  match setCrtcAux fill send setting s.crtcs 0 with
  | none => none
  | some (cs, reqs, res) => some ({ s with crtcs := cs }, reqs, res)

/-- The set-gamma request `restore` issues for one controller: the saved
ramps, verbatim. -/
def savedReq (c : Crtc) : SetGammaReq :=
  ⟨c.id, c.saved_ramps.1, c.saved_ramps.2.1, c.saved_ramps.2.2⟩

/-- The loop of `GammaMethod::restore` for `RandrState`: one checked
set-gamma request per controller carrying `saved_ramps`, stopping at the
first failed request. -/
def restoreAux (send : Nat → Option Nat) :
    List Crtc → Nat → List SetGammaReq × Except RandrError Unit
  | [], _ => ([], .ok ())
  | c :: t, k =>
    match send k with
    | some code => ([savedReq c], .error (.Generic code))
    | none =>
      let (reqs, res) := restoreAux send t (k + 1)
      (savedReq c :: reqs, res)

/-- `RandrState::restore`.  The source method takes `&self`; it cannot
mutate the state, which the model renders by returning the state unchanged
alongside the issued requests and the result. -/
def RandrState.restore (s : RandrState) (send : Nat → Option Nat) :
    RandrState × List SetGammaReq × Except RandrError Unit :=
  (s, restoreAux send s.crtcs 0)

/-- The `Crtc` record `start` builds from one fetched gamma reply:
`saved_ramps` and `scratch` both initialised from the fetched arrays. -/
def mkCrtc (handle : Nat) (g : GammaReply) : Crtc :=
  { id := handle
    ramp_size := g.size
    saved_ramps := (g.red, g.green, g.blue)
    scratch := (g.red, g.green, g.blue) }

/-- Total projection of a fetch result (used only to state results of runs
in which the fetch succeeded). -/
def okD : Except RandrError GammaReply → GammaReply
  | .ok g => g
  | .error _ => ⟨0, [], [], []⟩

/-- The loop of `RandrState::start` over the discovered CRTC handles:
fetch each handle's gamma, push a `Crtc`; the first failed fetch returns
early with the controllers pushed so far (the source has already assigned
`self.crtcs` before this loop). -/
def startAux (fetch : Nat → Except RandrError GammaReply) :
    List Nat → List Crtc → List Crtc × Except RandrError Unit
  | [], acc => (acc, .ok ())
  | h :: t, acc =>
    match fetch h with
    | .error e => (acc, .error e)
    | .ok g => startAux fetch t (acc ++ [mkCrtc h g])

/-- `RandrState::start`.  `screenRes` is the `get_screen_resources`
round-trip (the discovered handle list); on its failure the state is
untouched.  Otherwise `self.crtcs` is replaced by the freshly built list —
also when the fetch loop fails partway, exactly as in the source, where
`self.crtcs` is assigned an empty vector before the loop and pushed to
inside it. -/
def RandrState.start (s : RandrState)
    (screenRes : Except RandrError (List Nat))
    (fetch : Nat → Except RandrError GammaReply) :
    RandrState × Except RandrError Unit :=
  match screenRes with
  | .error e => (s, .error e)
  | .ok handles =>
    let (cs, res) := startAux fetch handles []
    ({ s with crtcs := cs }, res)

/-- `RandrState::init`: connect, negotiate the version, create the dummy
window; on success the state starts with an empty controller list. -/
def RandrState.init (connect : Except Unit Int)
    (versionReply : Except Nat VersionReply) (window_dummy : Nat) :
    Except RandrError RandrState :=
  match connect with
  | .error _ => .error .Conn
  | .ok screen_num =>
    match queryVersionFull versionReply with
    | .error e => .error e
    | .ok _ => .ok ⟨screen_num, window_dummy, []⟩

/-- The warning `DummyMethod::start` prints (`gamma_method.rs`). -/
def dummyWarning : String :=
  "WARNING: Using dummy gamma method! Display will not affected by this gamma method."

/-- `DummyMethod::start`: no protocol requests, one printed warning.  The
source method returns `()` — it cannot fail. -/
def dummyStart : List SetGammaReq × List String :=
  ([], [dummyWarning])

/-- `DummyMethod::set_temperature`: no protocol requests, prints
`Temperature: {setting.temp}`.  The source method returns `()` — it cannot
fail. -/
def dummySetTemperature (setting : ColorSetting) :
    List SetGammaReq × List String :=
  ([], ["Temperature: " ++ toString setting.temp])

/-- `DummyMethod::restore`: an empty body — no requests, no output, and it
returns `()`, so it cannot fail. -/
def dummyRestore : List SetGammaReq × List String :=
  ([], [])

/-- The spec's words for the base-ramp value (for comparison with the
code's `rampValue`): `round((i / ramp_size) * 65536)`, rounding half up. -/
def rampValueSpecRound (ramp_size i : Nat) : Nat :=
  (2 * (i * 65536) + ramp_size) / (2 * ramp_size)

/-- Well-formedness of a controller record: all six channel arrays have
`ramp_size` elements (established by `start` from wire-format-valid gamma
replies). -/
def CrtcWf (c : Crtc) : Prop :=
  c.saved_ramps.1.length = c.ramp_size ∧
  c.saved_ramps.2.1.length = c.ramp_size ∧
  c.saved_ramps.2.2.length = c.ramp_size ∧
  c.scratch.1.length = c.ramp_size ∧
  c.scratch.2.1.length = c.ramp_size ∧
  c.scratch.2.2.length = c.ramp_size

/-- The unchecked precondition of the base-ramp loop: the green and blue
scratch channels are at least as long as the red one (whose length is the
loop bound). -/
def ScratchOk (c : Crtc) : Prop :=
  c.scratch.1.length ≤ c.scratch.2.1.length ∧
  c.scratch.1.length ≤ c.scratch.2.2.length

/-! ### Helper lemmas about the base-ramp loop -/

lemma take_succ_set (l : List Nat) : ∀ (i v : Nat), i < l.length →
    (l.set i v).take (i + 1) = l.take i ++ [v] := by
  induction l with
  | nil => intro i v h; simp at h
  | cons a t ih =>
    intro i v h
    cases i with
    | zero => simp
    | succ i =>
      have ht : i < t.length := by simpa using h
      simp [List.set, ih i v ht]

lemma baseLoopAux_eq (m : Nat) :
    ∀ (k i : Nat) (r g b : List Nat), i + k = r.length →
      g.length = r.length → b.length = r.length →
      baseLoopAux m k i r g b =
        some (r.take i ++ (List.range' i k).map (rampValue m),
              g.take i ++ (List.range' i k).map (rampValue m),
              b.take i ++ (List.range' i k).map (rampValue m)) := by
  intro k
  induction k with
  | zero =>
    intro i r g b hi hg hb
    have hi' : i = r.length := by omega
    subst hi'
    rw [List.take_of_length_le (le_of_eq rfl),
        List.take_of_length_le (le_of_eq hg),
        List.take_of_length_le (le_of_eq hb)]
    simp [baseLoopAux]
  | succ k ih =>
    intro i r g b hi hg hb
    have hir : i < r.length := by omega
    have hig : i < g.length := by omega
    have hib : i < b.length := by omega
    have hr' : (i + 1) + k = (r.set i (rampValue m i)).length := by
      simp; omega
    have hg' : (g.set i (rampValue m i)).length =
        (r.set i (rampValue m i)).length := by simp [hg]
    have hb' : (b.set i (rampValue m i)).length =
        (r.set i (rampValue m i)).length := by simp [hb]
    simp only [baseLoopAux, setIdx, if_pos hir, if_pos hig, if_pos hib]
    rw [ih (i + 1) _ _ _ hr' hg' hb']
    rw [take_succ_set r i _ hir, take_succ_set g i _ hig,
        take_succ_set b i _ hib, List.range'_succ i k 1, List.map_cons]
    simp

lemma baseRamp_eq (m : Nat) (r g b : List Nat)
    (hg : g.length = r.length) (hb : b.length = r.length) :
    baseRamp m r g b =
      some ((List.range r.length).map (rampValue m),
            (List.range r.length).map (rampValue m),
            (List.range r.length).map (rampValue m)) := by
  unfold baseRamp
  rw [baseLoopAux_eq m r.length 0 r g b (by omega) hg hb]
  simp [List.range_eq_range']

lemma rampValue_eq_div (m i : Nat) (h : i < m) :
    rampValue m i = i * 65536 / m := by
  have hm : m ≠ 0 := by omega
  have hlt : i * 65536 / m < 65536 := by
    rw [Nat.div_lt_iff_lt_mul (by omega)]
    omega
  simp only [rampValue, if_neg hm]
  omega

lemma baseLoopAux_isSome (m : Nat) :
    ∀ (k i : Nat) (r g b : List Nat), i + k ≤ r.length →
      r.length ≤ g.length → r.length ≤ b.length →
      (baseLoopAux m k i r g b).isSome := by
  intro k
  induction k with
  | zero => intro i r g b _ _ _; simp [baseLoopAux]
  | succ k ih =>
    intro i r g b hi hg hb
    have hir : i < r.length := by omega
    have hig : i < g.length := by omega
    have hib : i < b.length := by omega
    simp only [baseLoopAux, setIdx, if_pos hir, if_pos hig, if_pos hib]
    exact ih (i + 1) _ _ _ (by simp; omega) (by simpa using hg)
      (by simpa using hb)

lemma baseRamp_isSome (m : Nat) (r g b : List Nat)
    (hg : r.length ≤ g.length) (hb : r.length ≤ b.length) :
    (baseRamp m r g b).isSome :=
  baseLoopAux_isSome m r.length 0 r g b (by omega) hg hb

/-! ### Helper lemmas about the operation loops -/

lemma newScratch_isSome (fill : FillFn) (setting : ColorSetting) (c : Crtc)
    (h : ScratchOk c) : (newScratch fill setting c).isSome := by
  obtain ⟨x, hx⟩ := Option.isSome_iff_exists.mp
    (baseRamp_isSome c.ramp_size c.scratch.1 c.scratch.2.1 c.scratch.2.2
      h.1 h.2)
  obtain ⟨r, g, b⟩ := x
  simp [newScratch, hx]

lemma newScratch_wf (fill : FillFn) (hfill : FillLen fill)
    (setting : ColorSetting) (c : Crtc) (hc : CrtcWf c) :
    ∃ s, newScratch fill setting c = some s ∧
      s.1.length = c.ramp_size ∧ s.2.1.length = c.ramp_size ∧
      s.2.2.length = c.ramp_size := by
  obtain ⟨_, _, _, h4, h5, h6⟩ := hc
  have hbr := baseRamp_eq c.ramp_size c.scratch.1 c.scratch.2.1 c.scratch.2.2
    (by omega) (by omega)
  refine ⟨fill (List.map (rampValue c.ramp_size) (List.range c.scratch.1.length))
      (List.map (rampValue c.ramp_size) (List.range c.scratch.1.length))
      (List.map (rampValue c.ramp_size) (List.range c.scratch.1.length))
      setting c.ramp_size, ?_, ?_, ?_, ?_⟩
  · unfold newScratch
    rw [hbr]
  · rw [(hfill _ _ _ setting c.ramp_size).1]; simp [h4]
  · rw [(hfill _ _ _ setting c.ramp_size).2.1]; simp [h4]
  · rw [(hfill _ _ _ setting c.ramp_size).2.2]; simp [h4]

lemma setCrtcAux_ok_all (fill : FillFn) (send : Nat → Option Nat)
    (setting : ColorSetting) :
    ∀ (crtcs : List Crtc) (k : Nat), (∀ c ∈ crtcs, ScratchOk c) →
      (∀ j, j < crtcs.length → send (k + j) = none) →
      setCrtcAux fill send setting crtcs k =
        some (crtcs.map (applyOneD fill setting),
              (crtcs.map (applyOneD fill setting)).map mkReq, .ok ()) := by
  intro crtcs
  induction crtcs with
  | nil => intro k _ _; rfl
  | cons c t ih =>
    intro k hwf hsend
    obtain ⟨s, hs⟩ := Option.isSome_iff_exists.mp
      (newScratch_isSome fill setting c (hwf c (by simp)))
    have h0 : send k = none := by simpa using hsend 0 (by simp)
    have ht : ∀ j, j < t.length → send ((k + 1) + j) = none := by
      intro j hj
      rw [show (k + 1) + j = k + (j + 1) by omega]
      exact hsend (j + 1) (by simp; omega)
    rw [show setCrtcAux fill send setting (c :: t) k =
        (match newScratch fill setting c with
        | none => none
        | some s =>
          match send k with
          | some code =>
            some ({ c with scratch := s } :: t, [⟨c.id, s.1, s.2.1, s.2.2⟩],
              .error (.Generic code))
          | none =>
            match setCrtcAux fill send setting t (k + 1) with
            | none => none
            | some (cs, reqs, res) =>
              some ({ c with scratch := s } :: cs,
                ⟨c.id, s.1, s.2.1, s.2.2⟩ :: reqs, res)) from rfl]
    rw [hs, h0, ih (k + 1) (fun x hx => hwf x (by simp [hx])) ht]
    simp [applyOneD, hs, mkReq]

lemma setCrtcAux_fail (fill : FillFn) (send : Nat → Option Nat)
    (setting : ColorSetting) (code : Nat) :
    ∀ (pre : List Crtc) (ck : Crtc) (post : List Crtc) (k : Nat),
      (∀ c ∈ pre, ScratchOk c) → ScratchOk ck →
      (∀ j, j < pre.length → send (k + j) = none) →
      send (k + pre.length) = some code →
      setCrtcAux fill send setting (pre ++ ck :: post) k =
        some ((pre ++ [ck]).map (applyOneD fill setting) ++ post,
              ((pre ++ [ck]).map (applyOneD fill setting)).map mkReq,
              .error (.Generic code)) := by
  intro pre
  induction pre with
  | nil =>
    intro ck post k _ hck _ hfail
    obtain ⟨s, hs⟩ := Option.isSome_iff_exists.mp
      (newScratch_isSome fill setting ck hck)
    simp only [List.length_nil, Nat.add_zero] at hfail
    simp [setCrtcAux, hs, hfail, applyOneD, mkReq]
  | cons c pre' ih =>
    intro ck post k hwf hck hsend hfail
    obtain ⟨s, hs⟩ := Option.isSome_iff_exists.mp
      (newScratch_isSome fill setting c (hwf c (by simp)))
    have h0 : send k = none := by simpa using hsend 0 (by simp)
    have hsend' : ∀ j, j < pre'.length → send ((k + 1) + j) = none := by
      intro j hj
      rw [show (k + 1) + j = k + (j + 1) by omega]
      exact hsend (j + 1) (by simp; omega)
    have hfail' : send ((k + 1) + pre'.length) = some code := by
      rw [show (k + 1) + pre'.length = k + (pre'.length + 1) by omega]
      simpa using hfail
    have hrec := ih ck post (k + 1) (fun x hx => hwf x (by simp [hx]))
      hck hsend' hfail'
    rw [List.cons_append,
      show setCrtcAux fill send setting (c :: (pre' ++ ck :: post)) k =
        (match newScratch fill setting c with
        | none => none
        | some s =>
          match send k with
          | some code =>
            some ({ c with scratch := s } :: (pre' ++ ck :: post),
              [⟨c.id, s.1, s.2.1, s.2.2⟩], .error (.Generic code))
          | none =>
            match setCrtcAux fill send setting (pre' ++ ck :: post) (k + 1) with
            | none => none
            | some (cs, reqs, res) =>
              some ({ c with scratch := s } :: cs,
                ⟨c.id, s.1, s.2.1, s.2.2⟩ :: reqs, res)) from rfl]
    rw [hs, h0, hrec]
    simp [applyOneD, hs, mkReq]

lemma setCrtcAux_isSome (fill : FillFn) (send : Nat → Option Nat)
    (setting : ColorSetting) :
    ∀ (crtcs : List Crtc) (k : Nat), (∀ c ∈ crtcs, ScratchOk c) →
      (setCrtcAux fill send setting crtcs k).isSome := by
  intro crtcs
  induction crtcs with
  | nil => intro k _; simp [setCrtcAux]
  | cons c t ih =>
    intro k hwf
    obtain ⟨s, hs⟩ := Option.isSome_iff_exists.mp
      (newScratch_isSome fill setting c (hwf c (by simp)))
    obtain ⟨x, hx⟩ := Option.isSome_iff_exists.mp
      (ih (k + 1) (fun y hy => hwf y (by simp [hy])))
    obtain ⟨cs, reqs, res⟩ := x
    cases hsend : send k with
    | some code => simp [setCrtcAux, hs, hsend]
    | none => simp [setCrtcAux, hs, hsend, hx]

lemma setCrtcAux_preserves_saved (fill : FillFn) (send : Nat → Option Nat)
    (setting : ColorSetting) :
    ∀ (crtcs : List Crtc) (k : Nat) out,
      setCrtcAux fill send setting crtcs k = some out →
      out.1.map (fun c => (c.id, c.ramp_size, c.saved_ramps)) =
        crtcs.map (fun c => (c.id, c.ramp_size, c.saved_ramps)) := by
  intro crtcs
  induction crtcs with
  | nil =>
    intro k out h
    simp only [setCrtcAux, Option.some.injEq] at h
    subst h
    rfl
  | cons c t ih =>
    intro k out h
    cases hs : newScratch fill setting c with
    | none => simp [setCrtcAux, hs] at h
    | some s =>
      cases hsend : send k with
      | some code =>
        simp only [setCrtcAux, hs, hsend, Option.some.injEq] at h
        subst h
        simp
      | none =>
        cases hrec : setCrtcAux fill send setting t (k + 1) with
        | none => simp [setCrtcAux, hs, hsend, hrec] at h
        | some rest =>
          obtain ⟨cs, reqs, res⟩ := rest
          simp only [setCrtcAux, hs, hsend, hrec, Option.some.injEq] at h
          subst h
          simpa using ih (k + 1) (cs, reqs, res) hrec

lemma setCrtcAux_preserves_wf (fill : FillFn) (hfill : FillLen fill)
    (send : Nat → Option Nat) (setting : ColorSetting) :
    ∀ (crtcs : List Crtc) (k : Nat) out,
      (∀ c ∈ crtcs, CrtcWf c) →
      setCrtcAux fill send setting crtcs k = some out →
      ∀ c ∈ out.1, CrtcWf c := by
  intro crtcs
  induction crtcs with
  | nil =>
    intro k out hwf h
    simp only [setCrtcAux, Option.some.injEq] at h
    subst h
    simp
  | cons c t ih =>
    intro k out hwf h
    obtain ⟨s, hs, hs1, hs2, hs3⟩ := newScratch_wf fill hfill setting c
      (hwf c (by simp))
    have hcwf : CrtcWf { c with scratch := s } := by
      obtain ⟨q1, q2, q3, _, _, _⟩ := hwf c (by simp)
      exact ⟨q1, q2, q3, hs1, hs2, hs3⟩
    cases hsend : send k with
    | some code =>
      simp only [setCrtcAux, hs, hsend, Option.some.injEq] at h
      subst h
      intro x hx
      rcases List.mem_cons.mp hx with rfl | hx
      · exact hcwf
      · exact hwf x (by simp [hx])
    | none =>
      cases hrec : setCrtcAux fill send setting t (k + 1) with
      | none => simp [setCrtcAux, hs, hsend, hrec] at h
      | some rest =>
        obtain ⟨cs, reqs, res⟩ := rest
        simp only [setCrtcAux, hs, hsend, hrec, Option.some.injEq] at h
        subst h
        intro x hx
        rcases List.mem_cons.mp hx with rfl | hx
        · exact hcwf
        · exact ih (k + 1) (cs, reqs, res) (fun y hy => hwf y (by simp [hy]))
            hrec x hx

lemma restoreAux_ok (send : Nat → Option Nat) (hok : ∀ j, send j = none) :
    ∀ (crtcs : List Crtc) (k : Nat),
      restoreAux send crtcs k = (crtcs.map savedReq, .ok ()) := by
  intro crtcs
  induction crtcs with
  | nil => intro k; rfl
  | cons c t ih => intro k; simp [restoreAux, hok k, ih (k + 1)]

lemma startAux_ok (fetch : Nat → Except RandrError GammaReply) :
    ∀ (handles : List Nat) (acc : List Crtc),
      (∀ h ∈ handles, ∃ g, fetch h = .ok g) →
      startAux fetch handles acc =
        (acc ++ handles.map (fun h => mkCrtc h (okD (fetch h))), .ok ()) := by
  intro handles
  induction handles with
  | nil => intro acc _; simp [startAux]
  | cons h t ih =>
    intro acc hall
    obtain ⟨g, hg⟩ := hall h (by simp)
    simp only [startAux, hg]
    rw [ih (acc ++ [mkCrtc h g]) (fun x hx => hall x (by simp [hx]))]
    simp [hg, okD]

lemma startAux_fail (fetch : Nat → Except RandrError GammaReply)
    (e : RandrError) :
    ∀ (pre : List Nat) (hbad : Nat) (post : List Nat) (acc : List Crtc),
      (∀ h ∈ pre, ∃ g, fetch h = .ok g) → fetch hbad = .error e →
      startAux fetch (pre ++ hbad :: post) acc =
        (acc ++ pre.map (fun h => mkCrtc h (okD (fetch h))), .error e) := by
  intro pre
  induction pre with
  | nil =>
    intro hbad post acc _ hb
    simp [startAux, hb]
  | cons h t ih =>
    intro hbad post acc hall hb
    obtain ⟨g, hg⟩ := hall h (by simp)
    have hstep : startAux fetch ((h :: t) ++ hbad :: post) acc =
        startAux fetch (t ++ hbad :: post) (acc ++ [mkCrtc h g]) := by
      simp [startAux, hg]
    rw [hstep, ih hbad post (acc ++ [mkCrtc h g])
      (fun x hx => hall x (by simp [hx])) hb]
    simp [hg, okD]

lemma startAux_wf (fetch : Nat → Except RandrError GammaReply) :
    ∀ (handles : List Nat) (acc : List Crtc),
      (∀ h ∈ handles, ∀ g, fetch h = .ok g → g.Wf) →
      (∀ c ∈ acc, CrtcWf c) →
      ∀ c ∈ (startAux fetch handles acc).1, CrtcWf c := by
  intro handles
  induction handles with
  | nil => intro acc _ hacc; simpa [startAux] using hacc
  | cons h t ih =>
    intro acc hall hacc
    cases hf : fetch h with
    | error e => simpa [startAux, hf] using hacc
    | ok g =>
      have hgwf : g.Wf := hall h (by simp) g hf
      have hmk : CrtcWf (mkCrtc h g) := by
        obtain ⟨w1, w2, w3⟩ := hgwf
        exact ⟨w1, w2, w3, w1, w2, w3⟩
      simp only [startAux, hf]
      refine ih (acc ++ [mkCrtc h g]) (fun x hx gg hgg => hall x (by simp [hx]) gg hgg) ?_
      intro x hx
      rcases List.mem_append.mp hx with hx | hx
      · exact hacc x hx
      · simp at hx
        exact hx ▸ hmk

/-! ### Claims -/

/-- C1: `negotiate_version` (`query_version`) succeeds iff the reported
major equals the required major (1) and the reported minor is at least the
required minimum (3); in every other case it fails with
`UnsupportedVersion` carrying the reported pair.  In particular (1,2)
fails with `UnsupportedVersion(1,2)`, (1,3) and (1,4) succeed, and (2,m)
fails for every minor m. -/
theorem negotiate_version_spec (maj mino : Nat) :
    (query_version ⟨maj, mino⟩ = .ok () ↔
      (maj = RANDR_MAJOR_VERSION ∧ RANDR_MINOR_VERSION ≤ mino)) ∧
    (¬(maj = RANDR_MAJOR_VERSION ∧ RANDR_MINOR_VERSION ≤ mino) →
      query_version ⟨maj, mino⟩ = .error (.UnsupportedVersion maj mino)) ∧
    query_version ⟨1, 2⟩ = .error (.UnsupportedVersion 1 2) ∧
    query_version ⟨1, 3⟩ = .ok () ∧
    query_version ⟨1, 4⟩ = .ok () ∧
    query_version ⟨2, mino⟩ = .error (.UnsupportedVersion 2 mino) := by
  have key : ∀ a b : Nat, query_version ⟨a, b⟩ =
      if a ≠ 1 ∨ b < 3 then .error (.UnsupportedVersion a b) else .ok () :=
    fun a b => rfl
  refine ⟨?_, ?_, rfl, rfl, rfl, ?_⟩
  · rw [key]
    by_cases h : maj ≠ 1 ∨ mino < 3
    · rw [if_pos h]
      constructor
      · intro hx; exact Except.noConfusion hx
      · intro hx
        simp only [RANDR_MAJOR_VERSION, RANDR_MINOR_VERSION] at hx
        exact absurd hx (by omega)
    · rw [if_neg h]
      constructor
      · intro _
        simp only [RANDR_MAJOR_VERSION, RANDR_MINOR_VERSION]
        omega
      · intro _; rfl
  · intro hn
    simp only [RANDR_MAJOR_VERSION, RANDR_MINOR_VERSION] at hn
    rw [key, if_pos (by omega)]
  · rw [key, if_pos (Or.inl (by omega))]

/-- C1 witness: the theorem applied at reported versions (2,7) and (1,5). -/
theorem negotiate_version_spec_witness :
    query_version ⟨2, 7⟩ = .error (.UnsupportedVersion 2 7) ∧
    query_version ⟨1, 5⟩ = .ok () :=
  ⟨(negotiate_version_spec 2 7).2.1 (by decide),
   (negotiate_version_spec 1 5).1.mpr (by decide)⟩

/-- C2 counterexample: the claim says the base value is
`round((i / ramp_size) * 65536)`, but the code truncates.  For
`ramp_size = 3`, index 2 the code writes `43690` (= floor of 43690.67)
while the claimed rounding gives `43691`. -/
theorem base_ramp_round_counterexample :
    baseRamp 3 [0, 0, 0] [0, 0, 0] [0, 0, 0] =
      some ([0, 21845, 43690], [0, 21845, 43690], [0, 21845, 43690]) ∧
    rampValueSpecRound 3 2 = 43691 ∧ (43690 : Nat) ≠ 43691 := by decide

/-- C2 (amended): the recomputed base ramp assigns to each index
`i ∈ [0, ramp_size)` the value `trunc((i / ramp_size) * 65536)`
(truncation, i.e. `⌊i·65536/ramp_size⌋`, not rounding to nearest — the two
agree at every index where `ramp_size` divides `i·65536`, e.g. for all
indices when `ramp_size = 4`, where indices 0,1,2,3 map to 0, 16384,
32768, 49152), and assigns the identical value to all three channels
before the external transform is invoked. -/
theorem base_ramp_truncation (m : Nat) (r g b : List Nat)
    (hr : r.length = m) (hg : g.length = m) (hb : b.length = m) :
    baseRamp m r g b =
      some ((List.range m).map (rampValue m),
            (List.range m).map (rampValue m),
            (List.range m).map (rampValue m)) ∧
    ∀ i, i < m → rampValue m i = i * 65536 / m := by
  constructor
  · have h := baseRamp_eq m r g b (by omega) (by omega)
    rwa [hr] at h
  · exact fun i hi => rampValue_eq_div m i hi

/-- C2 witness: the theorem applied at `ramp_size = 4`, giving the base
values 0, 16384, 32768, 49152 on all three channels. -/
theorem base_ramp_truncation_witness :
    baseRamp 4 [0, 0, 0, 0] [0, 0, 0, 0] [0, 0, 0, 0] =
      some ([0, 16384, 32768, 49152], [0, 16384, 32768, 49152],
            [0, 16384, 32768, 49152]) ∧
    rampValue 4 1 = 1 * 65536 / 4 := by
  have h := base_ramp_truncation 4 [0, 0, 0, 0] [0, 0, 0, 0] [0, 0, 0, 0]
    rfl rfl rfl
  exact ⟨h.1.trans (by decide), h.2 1 (by decide)⟩

/-- C9: the fallback (dummy) backend: `start` issues no protocol request
and prints the warning; `set_temperature` issues no protocol request for
any setting and only prints the requested temperature; `restore` performs
no action.  All three source methods return `()`, so none of them can
fail. -/
theorem dummy_backend_spec (setting : ColorSetting) :
    dummyStart.1 = [] ∧ dummyStart.2 = [dummyWarning] ∧
    (dummySetTemperature setting).1 = [] ∧
    (dummySetTemperature setting).2 =
      ["Temperature: " ++ toString setting.temp] ∧
    dummyRestore.1 = [] ∧ dummyRestore.2 = [] :=
  ⟨rfl, rfl, rfl, rfl, rfl, rfl⟩

/-- C9 witness: the theorem applied at a concrete setting. -/
theorem dummy_backend_spec_witness :
    (dummySetTemperature ⟨3500⟩).1 = [] ∧
    (dummySetTemperature ⟨3500⟩).2 = ["Temperature: 3500"] :=
  ⟨(dummy_backend_spec ⟨3500⟩).2.2.1,
   ((dummy_backend_spec ⟨3500⟩).2.2.2.1).trans rfl⟩

/-- C8: on the real backend, a state fresh out of `init` has an empty
controller set, and `set_temperature` on it is a silent no-op: it issues
no set-gamma request and returns success. -/
theorem set_temperature_before_start (connect : Except Unit Int)
    (vrep : Except Nat VersionReply) (wd : Nat) (s : RandrState)
    (hinit : RandrState.init connect vrep wd = .ok s)
    (fill : FillFn) (send : Nat → Option Nat) (setting : ColorSetting) :
    s.crtcs = [] ∧
    s.setCrtcTemperatures fill send setting = some (s, [], .ok ()) := by
  cases connect with
  | error u => simp [RandrState.init] at hinit
  | ok sn =>
    cases hq : queryVersionFull vrep with
    | error e => simp [RandrState.init, hq] at hinit
    | ok u =>
      simp only [RandrState.init, hq] at hinit
      have h := Except.ok.inj hinit
      subst h
      exact ⟨rfl, rfl⟩

/-- C8 witness: the theorem applied to a concrete successful `init` run
(version reply (1,3)). -/
theorem set_temperature_before_start_witness :
    (⟨0, 7, []⟩ : RandrState).crtcs = [] ∧
    RandrState.setCrtcTemperatures ⟨0, 7, []⟩ (fun r g b _ _ => (r, g, b))
      (fun _ => none) ⟨6500⟩ = some (⟨0, 7, []⟩, [], .ok ()) :=
  set_temperature_before_start (.ok 0) (.ok ⟨1, 3⟩) 7 ⟨0, 7, []⟩ rfl
    (fun r g b _ _ => (r, g, b)) (fun _ => none) ⟨6500⟩

/-- C5: `restore` leaves the state (hence the controller set) unchanged —
in the source it takes `&self` — and, when the transport accepts every
request, issues exactly one set-gamma request per controller carrying that
controller's `saved_ramps` verbatim, returning success; a second `restore`
on the resulting state issues the byte-for-byte identical request
sequence. -/
theorem restore_replays_saved (s : RandrState) (send : Nat → Option Nat)
    (hok : ∀ j, send j = none) :
    (s.restore send).1 = s ∧
    (s.restore send).2.1 = s.crtcs.map savedReq ∧
    (s.restore send).2.2 = .ok () ∧
    (((s.restore send).1).restore send).2.1 = (s.restore send).2.1 := by
  have h := restoreAux_ok send hok s.crtcs 0
  refine ⟨rfl, ?_, ?_, rfl⟩
  · show (restoreAux send s.crtcs 0).1 = _
    rw [h]
  · show (restoreAux send s.crtcs 0).2 = _
    rw [h]

/-- C5 witness: the theorem applied to a one-controller state whose
scratch differs from its saved ramps; the replayed request carries the
saved ramps, not the scratch contents. -/
theorem restore_replays_saved_witness :
    (RandrState.restore
        ⟨0, 7, [⟨42, 2, ([1, 2], [3, 4], [5, 6]), ([9, 9], [9, 9], [9, 9])⟩]⟩
        (fun _ => none)).2.1 = [⟨42, [1, 2], [3, 4], [5, 6]⟩] ∧
    (RandrState.restore
        ⟨0, 7, [⟨42, 2, ([1, 2], [3, 4], [5, 6]), ([9, 9], [9, 9], [9, 9])⟩]⟩
        (fun _ => none)).1 =
      ⟨0, 7, [⟨42, 2, ([1, 2], [3, 4], [5, 6]), ([9, 9], [9, 9], [9, 9])⟩]⟩ := by
  have h := restore_replays_saved
    ⟨0, 7, [⟨42, 2, ([1, 2], [3, 4], [5, 6]), ([9, 9], [9, 9], [9, 9])⟩]⟩
    (fun _ => none) (fun _ => rfl)
  exact ⟨h.2.1.trans (by decide), h.1⟩

/-- C6: `saved_ramps` is write-once: `set_temperature` leaves every
controller's `id`, `ramp_size` and `saved_ramps` unchanged (it writes only
the scratch buffers), and `restore` does not mutate the state at all. -/
theorem saved_ramps_write_once (fill : FillFn) (send : Nat → Option Nat)
    (setting : ColorSetting) (s : RandrState)
    (out : RandrState × List SetGammaReq × Except RandrError Unit)
    (h : s.setCrtcTemperatures fill send setting = some out) :
    out.1.crtcs.map (fun c => (c.id, c.ramp_size, c.saved_ramps)) =
      s.crtcs.map (fun c => (c.id, c.ramp_size, c.saved_ramps)) ∧
    (s.restore send).1 = s := by
  refine ⟨?_, rfl⟩
  cases haux : setCrtcAux fill send setting s.crtcs 0 with
  | none => simp [RandrState.setCrtcTemperatures, haux] at h
  | some triple =>
    obtain ⟨cs, reqs, res⟩ := triple
    simp only [RandrState.setCrtcTemperatures, haux, Option.some.injEq] at h
    subst h
    exact setCrtcAux_preserves_saved fill send setting s.crtcs 0
      (cs, reqs, res) haux

/-- C6 witness: the theorem applied to a concrete `set_temperature` run;
the saved ramps survive while the scratch is overwritten. -/
theorem saved_ramps_write_once_witness :
    ((⟨0, 7, [⟨1, 2, ([1, 2], [1, 2], [1, 2]),
          ([0, 32768], [0, 32768], [0, 32768])⟩]⟩,
        [⟨1, [0, 32768], [0, 32768], [0, 32768]⟩], .ok ()) :
      RandrState × List SetGammaReq ×
        Except RandrError Unit).1.crtcs.map
        (fun c => (c.id, c.ramp_size, c.saved_ramps)) =
      (⟨0, 7, [⟨1, 2, ([1, 2], [1, 2], [1, 2]),
          ([0, 0], [0, 0], [0, 0])⟩]⟩ : RandrState).crtcs.map
        (fun c => (c.id, c.ramp_size, c.saved_ramps)) :=
  (saved_ramps_write_once (fun r g b _ _ => (r, g, b)) (fun _ => none) ⟨6500⟩
    ⟨0, 7, [⟨1, 2, ([1, 2], [1, 2], [1, 2]), ([0, 0], [0, 0], [0, 0])⟩]⟩
    (⟨0, 7, [⟨1, 2, ([1, 2], [1, 2], [1, 2]),
        ([0, 32768], [0, 32768], [0, 32768])⟩]⟩,
      [⟨1, [0, 32768], [0, 32768], [0, 32768]⟩], .ok ()) rfl).1

/-- C10: the base-ramp loop bound is the red scratch channel's length
while all three channels are written; whenever the green and blue scratch
channels are at least as long as the red one, on every controller, the
whole `set_temperature` call is panic-free (the out-of-bounds branch is
unreachable); this precondition appears as a hypothesis — the code never
checks it. -/
theorem base_ramp_loop_in_bounds (fill : FillFn) (send : Nat → Option Nat)
    (setting : ColorSetting) (s : RandrState)
    (h : ∀ c ∈ s.crtcs, ScratchOk c) :
    (s.setCrtcTemperatures fill send setting).isSome := by
  obtain ⟨x, hx⟩ := Option.isSome_iff_exists.mp
    (setCrtcAux_isSome fill send setting s.crtcs 0 h)
  obtain ⟨cs, reqs, res⟩ := x
  simp [RandrState.setCrtcTemperatures, hx]

/-- C10 witness: the theorem applied to a controller whose green and blue
scratch channels are strictly longer than the red one. -/
theorem base_ramp_loop_in_bounds_witness :
    (RandrState.setCrtcTemperatures
      ⟨0, 7, [⟨3, 2, ([1, 2], [3, 4], [5, 6]),
          ([0, 0], [0, 0, 0], [0, 0, 0, 0])⟩]⟩
      (fun r g b _ _ => (r, g, b)) (fun _ => none) ⟨4500⟩).isSome :=
  base_ramp_loop_in_bounds (fun r g b _ _ => (r, g, b)) (fun _ => none)
    ⟨4500⟩
    ⟨0, 7, [⟨3, 2, ([1, 2], [3, 4], [5, 6]),
        ([0, 0], [0, 0, 0], [0, 0, 0, 0])⟩]⟩
    (fun c hc => by
      have h1 := List.mem_singleton.mp hc
      subst h1
      exact ⟨by decide, by decide⟩)

/-- C3 counterexample: after a failed `start` the state's controller set
IS a partially-populated list.  With prior controller set of one entry and
two discovered handles of which the second's gamma fetch fails, `start`
returns the error but leaves exactly the first handle's controller in the
state: one entry out of two discovered, and not the prior set either. -/
theorem start_population_counterexample :
    (RandrState.start ⟨0, 7, [⟨99, 1, ([1], [1], [1]), ([1], [1], [1])⟩]⟩
        (.ok [10, 11])
        (fun h => if h = 10 then .ok ⟨2, [1, 2], [3, 4], [5, 6]⟩
                  else .error (.Generic 1))).2 = .error (.Generic 1) ∧
    (RandrState.start ⟨0, 7, [⟨99, 1, ([1], [1], [1]), ([1], [1], [1])⟩]⟩
        (.ok [10, 11])
        (fun h => if h = 10 then .ok ⟨2, [1, 2], [3, 4], [5, 6]⟩
                  else .error (.Generic 1))).1.crtcs =
      [⟨10, 2, ([1, 2], [3, 4], [5, 6]), ([1, 2], [3, 4], [5, 6])⟩] :=
  ⟨rfl, rfl⟩

/-- C3 (amended): `start` aborts at the first failing per-handle gamma
fetch (no later handle contributes a controller) and on success the new
controller set fully replaces any prior entries; however, a failed `start`
does leave a partial controller set in the state: exactly the controllers
built from the handles before the failing one (prior entries are still
discarded). -/
theorem start_population_policy (s : RandrState)
    (fetch : Nat → Except RandrError GammaReply) (handles : List Nat) :
    ((∀ h ∈ handles, ∃ g, fetch h = .ok g) →
      s.start (.ok handles) fetch =
        ({ s with crtcs := handles.map (fun h => mkCrtc h (okD (fetch h))) },
         .ok ())) ∧
    (∀ (pre : List Nat) (hbad : Nat) (post : List Nat) (e : RandrError),
      handles = pre ++ hbad :: post →
      (∀ h ∈ pre, ∃ g, fetch h = .ok g) → fetch hbad = .error e →
      s.start (.ok handles) fetch =
        ({ s with crtcs := pre.map (fun h => mkCrtc h (okD (fetch h))) },
         .error e)) := by
  constructor
  · intro hall
    simp only [RandrState.start]
    rw [startAux_ok fetch handles [] hall]
    rfl
  · intro pre hbad post e hh hall hb
    subst hh
    simp only [RandrState.start]
    rw [startAux_fail fetch e pre hbad post [] hall hb]
    rfl

/-- C3 witness: the theorem's success branch applied to a state with a
prior controller entry: the new one-controller set fully replaces it. -/
theorem start_population_policy_witness :
    RandrState.start ⟨0, 7, [⟨99, 1, ([1], [1], [1]), ([1], [1], [1])⟩]⟩
        (.ok [10]) (fun _ => .ok ⟨1, [5], [6], [7]⟩) =
      (⟨0, 7, [⟨10, 1, ([5], [6], [7]), ([5], [6], [7])⟩]⟩, .ok ()) :=
  ((start_population_policy
      ⟨0, 7, [⟨99, 1, ([1], [1], [1]), ([1], [1], [1])⟩]⟩
      (fun _ => .ok ⟨1, [5], [6], [7]⟩) [10]).1
    (fun _ _ => ⟨⟨1, [5], [6], [7]⟩, rfl⟩))

/-- C4: `set_temperature` processes controllers in order under the
first-failure-aborts policy.  If every checked set-gamma request succeeds,
it returns success having issued one request per controller.  If the
request for the k-th controller (k = `pre.length`) fails with error code
`code`, the call returns that error; requests were issued exactly for the
controllers before k (whose new ramps are therefore applied) and for k
itself, and the controllers after k are untouched — no request is issued
for them. -/
theorem set_temperature_first_failure (fill : FillFn)
    (send : Nat → Option Nat) (setting : ColorSetting) (s : RandrState) :
    ((∀ c ∈ s.crtcs, ScratchOk c) →
      (∀ j, j < s.crtcs.length → send j = none) →
      s.setCrtcTemperatures fill send setting =
        some ({ s with crtcs := s.crtcs.map (applyOneD fill setting) },
              (s.crtcs.map (applyOneD fill setting)).map mkReq, .ok ())) ∧
    (∀ (pre : List Crtc) (ck : Crtc) (post : List Crtc) (code : Nat),
      s.crtcs = pre ++ ck :: post →
      (∀ c ∈ pre, ScratchOk c) → ScratchOk ck →
      (∀ j, j < pre.length → send j = none) →
      send pre.length = some code →
      s.setCrtcTemperatures fill send setting =
        some ({ s with
                  crtcs := (pre ++ [ck]).map (applyOneD fill setting) ++ post },
              ((pre ++ [ck]).map (applyOneD fill setting)).map mkReq,
              .error (.Generic code))) := by
  constructor
  · intro hwf hsend
    have h := setCrtcAux_ok_all fill send setting s.crtcs 0 hwf
      (fun j hj => by simpa using hsend j hj)
    simp [RandrState.setCrtcTemperatures, h]
  · intro pre ck post code hcr hwf hck hsend hfail
    have h := setCrtcAux_fail fill send setting code pre ck post 0 hwf hck
      (fun j hj => by simpa using hsend j hj) (by simpa using hfail)
    rw [RandrState.setCrtcTemperatures, hcr, h]

/-- C4 witness: three controllers, transport failing on the second
request: the first two requests are issued (the first controller's new
ramp is applied), the third controller is untouched and gets no request,
and the call returns the protocol error. -/
theorem set_temperature_first_failure_witness :
    RandrState.setCrtcTemperatures
      ⟨0, 7, [⟨1, 1, ([7], [7], [7]), ([0], [0], [0])⟩,
              ⟨2, 1, ([8], [8], [8]), ([1], [1], [1])⟩,
              ⟨3, 1, ([9], [9], [9]), ([2], [2], [2])⟩]⟩
      (fun r g b _ _ => (r, g, b)) (fun j => if j = 1 then some 5 else none)
      ⟨4500⟩ =
    some (⟨0, 7, [⟨1, 1, ([7], [7], [7]), ([0], [0], [0])⟩,
                  ⟨2, 1, ([8], [8], [8]), ([0], [0], [0])⟩,
                  ⟨3, 1, ([9], [9], [9]), ([2], [2], [2])⟩]⟩,
          [⟨1, [0], [0], [0]⟩, ⟨2, [0], [0], [0]⟩],
          .error (.Generic 5)) := by
  have h := (set_temperature_first_failure (fun r g b _ _ => (r, g, b))
    (fun j => if j = 1 then some 5 else none) ⟨4500⟩
    ⟨0, 7, [⟨1, 1, ([7], [7], [7]), ([0], [0], [0])⟩,
            ⟨2, 1, ([8], [8], [8]), ([1], [1], [1])⟩,
            ⟨3, 1, ([9], [9], [9]), ([2], [2], [2])⟩]⟩).2
    [⟨1, 1, ([7], [7], [7]), ([0], [0], [0])⟩]
    ⟨2, 1, ([8], [8], [8]), ([1], [1], [1])⟩
    [⟨3, 1, ([9], [9], [9]), ([2], [2], [2])⟩] 5 rfl
    (fun c hc => by
      have h1 := List.mem_singleton.mp hc
      subst h1
      exact ⟨by decide, by decide⟩)
    ⟨by decide, by decide⟩
    (fun j hj => by
      have hj0 : j = 0 := by simpa using hj
      subst hj0
      rfl)
    rfl
  exact h.trans rfl

/-- C7 counterexample: the code never checks `ramp_size > 0`.  A
wire-format-valid gamma reply of size 0 yields a SUCCESSFUL `start` whose
controller has `ramp_size = 0`. -/
theorem ramp_size_zero_counterexample :
    (RandrState.start ⟨0, 7, []⟩ (.ok [5])
        (fun _ => .ok ⟨0, [], [], []⟩)).2 = .ok () ∧
    (RandrState.start ⟨0, 7, []⟩ (.ok [5])
        (fun _ => .ok ⟨0, [], [], []⟩)).1.crtcs =
      [⟨5, 0, ([], [], []), ([], [], [])⟩] ∧
    GammaReply.Wf ⟨0, [], [], []⟩ ∧ ¬ 0 < (0 : Nat) :=
  ⟨rfl, rfl, ⟨rfl, rfl, rfl⟩, by omega⟩

/-- C7 (amended): for every controller left by a `start` run whose fetched
replies are wire-format valid, the three `saved_ramps` channel arrays and
the three `scratch` channel arrays all have length `ramp_size`; after any
successful-or-failed `set_temperature` call (with a length-preserving
transform) the controllers still satisfy the same length invariants
(scratch is overwritten, never resized).  `ramp_size > 0` is NOT
guaranteed: the code accepts size-0 gamma replies (see the
counterexample). -/
theorem controller_length_invariants (s : RandrState)
    (fetch : Nat → Except RandrError GammaReply) (handles : List Nat)
    (st : RandrState) (res : Except RandrError Unit)
    (hwf : ∀ h ∈ handles, ∀ g, fetch h = .ok g → g.Wf)
    (hrun : s.start (.ok handles) fetch = (st, res)) :
    (∀ c ∈ st.crtcs, CrtcWf c) ∧
    (∀ (fill : FillFn), FillLen fill → ∀ (send : Nat → Option Nat)
      (setting : ColorSetting)
      (out : RandrState × List SetGammaReq × Except RandrError Unit),
      st.setCrtcTemperatures fill send setting = some out →
      ∀ c ∈ out.1.crtcs, CrtcWf c) := by
  have hcr : ∀ c ∈ st.crtcs, CrtcWf c := by
    cases hp : startAux fetch handles [] with
    | mk cs r =>
      simp only [RandrState.start, hp] at hrun
      have h1 : ({ s with crtcs := cs } : RandrState) = st :=
        congrArg Prod.fst hrun
      intro c hc
      rw [← h1] at hc
      exact startAux_wf fetch handles [] hwf (by simp) c (hp ▸ hc)
  refine ⟨hcr, ?_⟩
  intro fill hfill send setting out hout
  cases haux : setCrtcAux fill send setting st.crtcs 0 with
  | none => simp [RandrState.setCrtcTemperatures, haux] at hout
  | some triple =>
    obtain ⟨cs2, reqs, res2⟩ := triple
    simp only [RandrState.setCrtcTemperatures, haux, Option.some.injEq]
      at hout
    subst hout
    exact fun c hc => setCrtcAux_preserves_wf fill hfill send setting
      st.crtcs 0 (cs2, reqs, res2) hcr haux c hc

/-- C7 witness: the theorem applied to a concrete one-handle `start` run
with a wire-format-valid size-1 reply. -/
theorem controller_length_invariants_witness :
    CrtcWf ⟨10, 1, ([5], [6], [7]), ([5], [6], [7])⟩ :=
  (controller_length_invariants ⟨0, 7, []⟩ (fun _ => .ok ⟨1, [5], [6], [7]⟩)
    [10] ⟨0, 7, [⟨10, 1, ([5], [6], [7]), ([5], [6], [7])⟩]⟩ (.ok ())
    (fun _ _ g hg => by
      injection hg with hg
      subst hg
      exact ⟨rfl, rfl, rfl⟩)
    rfl).1 ⟨10, 1, ([5], [6], [7]), ([5], [6], [7])⟩ (by simp)
